import Mathlib

/-
  Verification development for the AsyncMulticastDelegateCpp11 delegate library.

  Each definition below is a shallow embedding of a function or class from the
  C++ sources under src/Delegate.  Machine pointers are modelled as Nat
  addresses into explicit heaps (lists of optional cells, none = freed),
  cross-thread interleavings as explicit schedule values, and the lock-guarded
  critical sections of DelegateAsyncWait.h as atomic steps on a shared state.
-/

set_option linter.unusedVariables false
set_option linter.unnecessarySeqFocus false
set_option linter.unnecessarySimpa false

namespace DelegateLib

/-
  Async-Wait Coordinator: DelegateMemberAsyncWait of RetType(TClass(void)),
  src/Delegate/DelegateAsyncWait.h lines 148-212.

  The waiting caller (operator(), lines 148-181) clones the delegate, sets the
  clone's m_refCnt to 2, enqueues a DelegateMsgBase, blocks on the clone's
  semaphore, copies the clone's m_retVal on success, then under the clone's
  lock decrements m_refCnt and frees msg and clone exactly when it reached 0.

  The target thread (DelegateInvoke, lines 193-212) under the same lock
  invokes the bound member function and signals the semaphore only when
  m_refCnt is still 2, then decrements m_refCnt and frees msg and the clone
  exactly when it reached 0.

  Both mutations of the shared state run under the single lock m_lock, so an
  execution is fully described by the order of the two critical sections
  relative to the waiting caller returning from Semaphore::Wait
  (src/Delegate/Semaphore.cpp lines 38-60: Wait returns true iff m_signaled
  was set before the timeout expired).
-/

/-- Shared state of one blocking Async-Wait invocation: the cloned delegate's
lock-guarded fields plus the freed-or-not status of the heap data. -/
structure WaitShared where
  refCnt : Nat
  signaled : Bool
  sharedRetVal : Option Int
  invoked : Bool
  targetFreed : Bool
deriving Repr, DecidableEq

/-- State of the shared clone right after the caller set m_refCnt = 2 and
reset the semaphore, before any side runs its critical section. -/
def initShared : WaitShared :=
  { refCnt := 2, signaled := false, sharedRetVal := none,
    invoked := false, targetFreed := false }

/-- The target thread's DelegateInvoke critical section
(DelegateAsyncWait.h lines 193-212): when m_refCnt is still 2 it invokes the
bound call, stores the return value into the clone and signals the semaphore;
it then decrements m_refCnt and frees the message and clone iff it hit 0. -/
def targetInvoke (baseCall : Int) (s : WaitShared) : WaitShared :=
  let s1 :=
    if s.refCnt = 2 then
      { s with sharedRetVal := some baseCall, signaled := true, invoked := true }
    else s
  let r := s1.refCnt - 1
  { s1 with refCnt := r, targetFreed := decide (r = 0) }

/-- The waiting caller's post-wait critical section
(DelegateAsyncWait.h lines 169-178): decrement m_refCnt under the lock; the
returned Bool is deleteData, true iff the counter hit 0, in which case the
caller deletes the message and the clone. -/
def waiterRelease (s : WaitShared) : WaitShared × Bool :=
  let r := s.refCnt - 1
  ({ s with refCnt := r }, decide (r = 0))

/-- Interleavings of the target thread's DelegateInvoke critical section
relative to the caller's Semaphore::Wait return and post-wait critical
section (the two critical sections are serialized by the single m_lock). -/
inductive WaitSched
  | targetFirst
  | targetMiddle
  | targetLast
deriving Repr, DecidableEq

/-- Observable outcome of one blocking Async-Wait invocation: m_success,
the caller's m_retVal (none models never-written garbage), whether the bound
function ran, and which sides freed the heap data. -/
structure WaitOutcome where
  success : Bool
  returnedVal : Option Int
  invoked : Bool
  waiterFreed : Bool
  targetFreed : Bool
deriving Repr, DecidableEq

/-- One full execution of DelegateMemberAsyncWait::operator() with a live
target thread, for a given interleaving.  targetFirst: DelegateInvoke runs
before the wait deadline, so Semaphore::Wait finds m_signaled and returns
true and the caller copies the clone's m_retVal.  targetMiddle: the wait
times out first, then DelegateInvoke runs (m_refCnt still 2, so the bound
call still executes and the signal is lost), then the caller releases.
targetLast: the wait times out and the caller releases before DelegateInvoke
runs, so DelegateInvoke sees m_refCnt = 1 and skips the bound call. -/
def runAsyncWait (sched : WaitSched) (baseCall : Int) : WaitOutcome :=
  match sched with
  | WaitSched.targetFirst =>
    let s1 := targetInvoke baseCall initShared
    let success := s1.signaled
    let copied := if success then s1.sharedRetVal else none
    let p := waiterRelease s1
    { success := success, returnedVal := copied, invoked := p.1.invoked,
      waiterFreed := p.2, targetFreed := p.1.targetFreed }
  | WaitSched.targetMiddle =>
    let s1 := targetInvoke baseCall initShared
    let p := waiterRelease s1
    { success := false, returnedVal := none, invoked := p.1.invoked,
      waiterFreed := p.2, targetFreed := p.1.targetFreed }
  | WaitSched.targetLast =>
    let p := waiterRelease initShared
    let s2 := targetInvoke baseCall p.1
    { success := false, returnedVal := none, invoked := s2.invoked,
      waiterFreed := p.2, targetFreed := s2.targetFreed }

/-- C1: for every interleaving of the waiting caller's wait returning (by
signal or timeout) and the target thread's DelegateInvoke, exactly one of the
two sides decrements the lock-guarded liveness counter (initialized to 2,
each side decrementing once under the single shared lock) to zero, and only
that side frees the shared cloned delegate and the message envelope — never
zero sides and never both. -/
theorem claim_C1 (sched : WaitSched) (baseCall : Int) :
    ((runAsyncWait sched baseCall).waiterFreed = true
      ∧ (runAsyncWait sched baseCall).targetFreed = false)
    ∨ ((runAsyncWait sched baseCall).waiterFreed = false
      ∧ (runAsyncWait sched baseCall).targetFreed = true) := by
  cases sched <;>
    simp [runAsyncWait, targetInvoke, waiterRelease, initShared]

/-- C2 counterexample: in the interleaving where the caller's wait times out
and the caller runs its release before the target thread dequeues
(targetLast), DelegateInvoke finds m_refCnt = 1 and never executes the bound
call, contradicting the claim that the target thread still executes the call
later. -/
theorem claim_C2_counterexample :
    (runAsyncWait WaitSched.targetLast 7).invoked = false
    ∧ (runAsyncWait WaitSched.targetLast 7).success = false := by decide

/-- C2 amended: after a caller timeout the target thread executes the bound
call on dequeue iff its critical section runs before the timed-out caller's
release of the liveness counter (counter still 2); once the caller has
released first, DelegateInvoke skips the bound call and only frees the shared
state.  When the call does execute after a timeout (targetMiddle) the timeout
affects only the caller's local view. -/
theorem claim_C2_amended (sched : WaitSched) (baseCall : Int) :
    ((runAsyncWait sched baseCall).invoked = true ↔ sched ≠ WaitSched.targetLast)
    ∧ ((runAsyncWait WaitSched.targetMiddle baseCall).invoked = true
        ∧ (runAsyncWait WaitSched.targetMiddle baseCall).success = false) := by
  refine ⟨?_, ?_⟩
  · cases sched <;>
      simp [runAsyncWait, targetInvoke, waiterRelease, initShared]
  · simp [runAsyncWait, targetInvoke, waiterRelease, initShared]

/-- C2 amended witness: at the targetMiddle interleaving the bound call
executes despite the caller's timeout. -/
theorem claim_C2_witness :
    (runAsyncWait WaitSched.targetMiddle 7).invoked = true
    ∧ (runAsyncWait WaitSched.targetMiddle 7).success = false :=
  ⟨(claim_C2_amended WaitSched.targetMiddle 7).1.mpr (by decide),
    (claim_C2_amended WaitSched.targetMiddle 7).2.2⟩

/-- C3: if the semaphore wait expires before the target thread signals
completion, IsSuccess() is false and the waiter never copies the stored
return value; if the target thread completes and signals within the timeout,
IsSuccess() is true and the value returned to the caller equals the bound
function applied to the input (for addOne the result equals input + 1). -/
theorem claim_C3 (x : Int) (sched : WaitSched) :
    ((runAsyncWait sched (x + 1)).success = true ↔ sched = WaitSched.targetFirst)
    ∧ ((runAsyncWait sched (x + 1)).success = true →
        (runAsyncWait sched (x + 1)).returnedVal = some (x + 1))
    ∧ ((runAsyncWait sched (x + 1)).success = false →
        (runAsyncWait sched (x + 1)).returnedVal = none) := by
  cases sched <;>
    simp [runAsyncWait, targetInvoke, waiterRelease, initShared]

/-- C3 witness: the timed-out branch and the completed branch both evaluated
at addOne with input 41. -/
theorem claim_C3_witness :
    ((runAsyncWait WaitSched.targetFirst (41 + 1)).success = true)
    ∧ ((runAsyncWait WaitSched.targetFirst (41 + 1)).returnedVal = some (41 + 1))
    ∧ ((runAsyncWait WaitSched.targetLast (41 + 1)).returnedVal = none) := by
  have h1 := (claim_C3 41 WaitSched.targetFirst).1.mpr rfl
  refine ⟨h1, (claim_C3 41 WaitSched.targetFirst).2.1 h1, ?_⟩
  exact (claim_C3 41 WaitSched.targetLast).2.2 (by decide)

/-
  Callable wrappers: src/Delegate/Delegate.h.

  DelegateFree stores one function pointer m_func (0 = unbound); operator==
  (lines 396-399) dynamic_casts to the same concrete variant and compares
  m_func.  DelegateMember stores m_object and m_func; operator==
  (lines 118-122) dynamic_casts and compares both.  Clone (line 108 etc.)
  heap-allocates a copy with operator new.  Pointers are modelled as Nat
  identities, null as none.
-/

/-- A concrete callable-wrapper variant with its target-identity fields:
free stores the function pointer m_func, member stores m_object and the
member-function pointer m_func (Delegate.h).  No other state exists in the
source classes, so equality can only depend on these fields. -/
inductive DelegateW
  | free (func : Option Nat)
  | member (obj : Option Nat) (func : Option Nat)
deriving Repr, DecidableEq

/-- The operator== of Delegate.h: the dynamic_cast succeeds only for the same
concrete variant, then DelegateFree compares m_func (lines 396-399) and
DelegateMember compares m_func and m_object (lines 118-122). -/
def equalsW : DelegateW → DelegateW → Bool
  | DelegateW.free f1, DelegateW.free f2 => decide (f1 = f2)
  | DelegateW.member o1 f1, DelegateW.member o2 f2 => decide (f1 = f2) && decide (o1 = o2)
  | _, _ => false

/-- Spec-level target identity: same concrete variant bound to the same
target (same function pointer, or same object pointer plus same
member-function pointer). -/
def SameTarget : DelegateW → DelegateW → Prop
  | DelegateW.free f1, DelegateW.free f2 => f1 = f2
  | DelegateW.member o1 f1, DelegateW.member o2 f2 => o1 = o2 ∧ f1 = f2
  | _, _ => False

/-- A heap of wrapper instances; the address of an instance is its index.
Clone (new ClassType(*this)) allocates a fresh instance holding the same
target fields and returns its address. -/
def cloneW (h : List DelegateW) (a : Nat) : List DelegateW × Nat :=
  (h ++ [h.getD a (DelegateW.free none)], h.length)

/-- C5: two wrappers compare equal iff they are the same concrete variant
bound to the same target identity; Clone(w) is a distinct heap instance that
compares equal to w; two independent wrappers with the same target are equal
and wrappers with different targets are unequal; the wrapper classes hold
nothing but the target fields, so equality cannot depend on argument values
or call history. -/
theorem claim_C5 (h : List DelegateW) (a : Nat) (ha : a < h.length)
    (d1 d2 : DelegateW) :
    (equalsW d1 d2 = true ↔ SameTarget d1 d2)
    ∧ ((cloneW h a).2 ≠ a
        ∧ (cloneW h a).1.getD (cloneW h a).2 (DelegateW.free none)
            = h.getD a (DelegateW.free none)
        ∧ equalsW ((cloneW h a).1.getD (cloneW h a).2 (DelegateW.free none))
            ((cloneW h a).1.getD a (DelegateW.free none)) = true) := by
  constructor
  · cases d1 <;> cases d2 <;> simp [equalsW, SameTarget] <;> tauto
  · have hne : h.length ≠ a := Nat.ne_of_gt ha
    have hclone : (cloneW h a).1.getD (cloneW h a).2 (DelegateW.free none)
        = h.getD a (DelegateW.free none) := by
      simp [cloneW, List.getD_append_right, List.getD]
    have horig : (cloneW h a).1.getD a (DelegateW.free none)
        = h.getD a (DelegateW.free none) := by
      simp [cloneW, List.getD, List.getElem?_append_left ha]
    refine ⟨hne, hclone, ?_⟩
    rw [hclone, horig]
    cases h.getD a (DelegateW.free none) <;> simp [equalsW]

/-- C5 witness: a one-element heap holding a free wrapper bound to function 1,
cloned at address 0. -/
theorem claim_C5_witness :
    (equalsW (DelegateW.free (some 1)) (DelegateW.free (some 1)) = true
      ↔ SameTarget (DelegateW.free (some 1)) (DelegateW.free (some 1)))
    ∧ ((cloneW [DelegateW.free (some 1)] 0).2 ≠ 0
        ∧ (cloneW [DelegateW.free (some 1)] 0).1.getD
            (cloneW [DelegateW.free (some 1)] 0).2 (DelegateW.free none)
            = [DelegateW.free (some 1)].getD 0 (DelegateW.free none)
        ∧ equalsW ((cloneW [DelegateW.free (some 1)] 0).1.getD
              (cloneW [DelegateW.free (some 1)] 0).2 (DelegateW.free none))
            ((cloneW [DelegateW.free (some 1)] 0).1.getD 0 (DelegateW.free none))
            = true) :=
  claim_C5 [DelegateW.free (some 1)] 0 (by decide)
    (DelegateW.free (some 1)) (DelegateW.free (some 1))

/-
  Unbound invocation: Delegate.h operator() for DelegateFree (lines 389-394
  and the other arities) tests m_func and returns RetType() when it is null;
  DelegateMember operator() (lines 111-116 and the other arities) tests
  m_object and returns RetType() when it is null; DelegateMemberSp
  (DelegateSp.h) does the same on its shared_ptr m_object.  Every arity from
  0 through 5 repeats the identical body with more parameters, captured here
  by letting A range over any argument tuple type (Unit for arity 0).
-/

/-- DelegateFree invocation: if m_func is non-null apply it, else return a
default-constructed RetType (Delegate.h lines 389-394, same shape at every
arity 0..5). -/
def invokeFree {A R : Type} [Inhabited R] (func : Option (A → R)) (a : A) : R :=
  match func with
  | some f => f a
  | none => default

/-- DelegateMember invocation: if m_object is non-null invoke the member
function on it, else return a default-constructed RetType (Delegate.h lines
111-116, same shape at every arity 0..5; DelegateMemberSp in DelegateSp.h is
identical with a shared_ptr object). -/
def invokeMember {O A R : Type} [Inhabited R]
    (obj : Option O) (func : O → A → R) (a : A) : R :=
  match obj with
  | some o => func o a
  | none => default

/-- C6: for both wrapper variants and any argument tuple (covering arity 0
through 5), invoking an unbound wrapper — null free-function pointer, or
null object pointer for member wrappers — returns a default-constructed
RetType rather than failing or propagating an error. -/
theorem claim_C6 {A R : Type} [Inhabited R] (a : A) (func : Nat → A → R) :
    invokeFree (R := R) none a = default
    ∧ invokeMember (O := Nat) none func a = default := by
  exact ⟨rfl, rfl⟩

/-
  SinglecastDelegate: src/Delegate/SinglecastDelegate.h.

  The container holds Delegate pointer m_delegate, null when default
  constructed, after Clear(), or after assigning a null delegate pointer
  (operator=, lines 26-30, only clones when the pointer is non-null).
  operator() (lines 32-33) evaluates (*m_delegate)() with no null test;
  dereferencing the null pointer is undefined behavior, embedded as none.
  Empty() and operator bool test m_delegate but operator() never calls them.
-/

/-- SinglecastDelegate state: the owned clone address, none when no delegate
is stored (SinglecastDelegate.h). -/
structure Singlecast where
  m_delegate : Option Nat
deriving Repr, DecidableEq

/-- Default-constructed SinglecastDelegate: m_delegate = 0. -/
def singlecastInit : Singlecast := { m_delegate := none }

/-- Clear() deletes any stored clone and nulls m_delegate. -/
def singlecastClear (s : Singlecast) : Singlecast := { m_delegate := none }

/-- operator= from a delegate pointer (SinglecastDelegate.h lines 26-30):
Clear, then clone only when the pointer is non-null.  The clone is modelled
as a fresh address distinct from the argument. -/
def singlecastAssignPtr (s : Singlecast) (delegate : Option Nat)
    (freshAddr : Nat) : Singlecast :=
  match delegate with
  | some _ => { m_delegate := some freshAddr }
  | none => { m_delegate := (singlecastClear s).m_delegate }

/-- operator() (SinglecastDelegate.h lines 32-33): evaluate (*m_delegate)()
unconditionally; with m_delegate null this dereferences a null pointer,
embedded as none (undefined behavior), never as a default RetType. -/
def singlecastCall (s : Singlecast) (invoke : Nat → Int) : Option Int :=
  match s.m_delegate with
  | some d => some (invoke d)
  | none => none

/-- Empty() (SinglecastDelegate.h line 35): true iff m_delegate is null. -/
def singlecastEmpty (s : Singlecast) : Bool := s.m_delegate.isNone

/-- C9: invoking a SinglecastDelegate that holds no delegate (default
constructed, cleared, or assigned a null delegate pointer) is unguarded —
operator() dereferences the stored null pointer (none outcome) — even though
Empty() reports true; the callable-wrapper types themselves instead return a
default value when unbound. -/
theorem claim_C9 (invoke : Nat → Int) (s : Singlecast) (fresh : Nat) :
    (singlecastCall singlecastInit invoke = none
      ∧ singlecastCall (singlecastClear s) invoke = none
      ∧ singlecastCall (singlecastAssignPtr s none fresh) invoke = none)
    ∧ (singlecastEmpty singlecastInit = true
      ∧ singlecastEmpty (singlecastClear s) = true)
    ∧ invokeFree (A := Unit) (R := Int) none () = default :=
  ⟨⟨rfl, rfl, rfl⟩, ⟨rfl, rfl⟩, rfl⟩

/-
  Null-thread fast path of the asynchronous wrappers.

  DelegateMemberAsync operator() (DelegateAsync.h lines 172-187): when
  m_thread is null, call BaseType::operator() on the calling thread; else
  clone the delegate, build a message and DispatchDelegate it.
  DelegateMemberAsyncWait operator() (DelegateAsyncWait.h lines 148-151):
  when m_thread is 0, return BaseType::operator()() directly; else run the
  clone/enqueue/wait rendezvous.
-/

/-- What one call to an async wrapper's operator() did: whether the bound
function ran synchronously on the calling thread, how many clones were made
and how many messages were dispatched to the target thread. -/
structure AsyncCallTrace where
  ranSync : Bool
  clonesMade : Nat
  msgsEnqueued : Nat
deriving Repr, DecidableEq

/-- DelegateMemberAsync::operator() (DelegateAsync.h lines 172-187) as a
trace: null thread means a direct synchronous base call with no clone and no
message; a live thread means one clone and one dispatched message. -/
def memberAsyncCall (thread : Option Nat) : AsyncCallTrace :=
  match thread with
  | none => { ranSync := true, clonesMade := 0, msgsEnqueued := 0 }
  | some _ => { ranSync := false, clonesMade := 1, msgsEnqueued := 1 }

/-- DelegateMemberAsyncWait::operator() entry (DelegateAsyncWait.h lines
148-151) as a trace plus the value returned to the caller on the null-thread
path: the base synchronous result is returned directly; with a live thread
the result instead comes from the rendezvous (none here). -/
def memberAsyncWaitCall (thread : Option Nat) (baseResult : Int) :
    Option Int × AsyncCallTrace :=
  match thread with
  | none => (some baseResult, { ranSync := true, clonesMade := 0, msgsEnqueued := 0 })
  | some _ => (none, { ranSync := false, clonesMade := 1, msgsEnqueued := 1 })

/-- C10: for both the fire-and-forget and the blocking-wait asynchronous
wrappers, a null bound target-thread pointer makes operator() enqueue nothing
and clone nothing: the bound function is invoked synchronously on the calling
thread, and the wait variant returns the base synchronous result directly. -/
theorem claim_C10 (baseResult : Int) :
    memberAsyncCall none
      = { ranSync := true, clonesMade := 0, msgsEnqueued := 0 }
    ∧ memberAsyncWaitCall none baseResult
      = (some baseResult,
          { ranSync := true, clonesMade := 0, msgsEnqueued := 0 }) :=
  ⟨rfl, rfl⟩

/-
  Remote Envelope: src/Delegate/DelegateRemoteSend.h and DelegateRemoteRecv.h.

  DelegateRemoteSend<void(Param1, Param2)>::operator() (lines 59-64) writes
  m_id then each argument into the stream, each followed by std::ends (one
  NUL byte), then hands the stream to the transport.
  DelegateMemberRemoteRecv<void(TClass(Param1, Param2))>::DelegateInvoke
  (lines 149-164) reads the id back with stream >> m_id, seeks past one
  sentinel byte, reads each declared parameter the same way, and invokes the
  bound member function with the parsed values.

  The byte stream is modelled as List Nat.  Integers are stream-formatted as
  decimal digit bytes; operator>> into an int consumes a maximal digit run.
-/

/-- The sentinel byte written by std::ends: a single NUL. -/
def sentinelByte : Nat := 0

/-- ASCII byte of a single decimal digit. -/
def digitByte (d : Nat) : Nat := 48 + d

/-- Whether a byte is an ASCII decimal digit, as operator>> classifies it. -/
def isDigitByte (b : Nat) : Bool := decide (48 ≤ b) && decide (b ≤ 57)

/-- Decimal digits of n, least significant first (empty for 0). -/
def natRevDigits (n : Nat) : List Nat :=
  if n = 0 then [] else digitByte (n % 10) :: natRevDigits (n / 10)
termination_by n
decreasing_by exact Nat.div_lt_self (Nat.pos_of_ne_zero (by assumption)) (by omega)

/-- Stream formatting of a nonnegative integer: its decimal digit bytes,
most significant first, with 0 printed as one digit. -/
def natBytes (n : Nat) : List Nat :=
  if n = 0 then [digitByte 0] else (natRevDigits n).reverse

/-- DelegateRemoteSend<void(Param1, Param2)>::operator() (DelegateRemoteSend.h
lines 59-64): id, sentinel, first argument, sentinel, second argument,
sentinel. -/
def remoteSendBytes (id p1 p2 : Nat) : List Nat :=
  natBytes id ++ [sentinelByte] ++ natBytes p1 ++ [sentinelByte]
    ++ natBytes p2 ++ [sentinelByte]

/-- Stream extraction of an int: consume a maximal run of digit bytes,
accumulating their value; the rest of the buffer is returned unread. -/
def parseNatAux : List Nat → Nat → Nat × List Nat
  | b :: bs, acc =>
    if isDigitByte b then parseNatAux bs (acc * 10 + (b - 48)) else (acc, b :: bs)
  | [], acc => (acc, [])

/-- The seekg(tellg() + 1) of DelegateInvoke: skip one sentinel byte. -/
def skipOne : List Nat → List Nat
  | [] => []
  | _ :: bs => bs

/-- DelegateMemberRemoteRecv<void(TClass(Param1, Param2))>::DelegateInvoke
(DelegateRemoteRecv.h lines 149-164): read the id, skip a sentinel, read each
declared parameter skipping its sentinel; the triple is (id read into m_id,
p1, p2), and the bound target is then invoked with (p1, p2). -/
def remoteRecvParse (buf : List Nat) : Nat × Nat × Nat :=
  let r0 := parseNatAux buf 0
  let r1 := parseNatAux (skipOne r0.2) 0
  let r2 := parseNatAux (skipOne r1.2) 0
  (r0.1, r1.1, r2.1)

/-- The final step of DelegateInvoke: BaseType::operator()(p1, p2) with the
parsed values. -/
def remoteRecvCall {α : Type} (target : Nat → Nat → α) (buf : List Nat) : α :=
  target (remoteRecvParse buf).2.1 (remoteRecvParse buf).2.2

/-- Parsing the reversed digit run of n continues into the rest of the buffer
with n accumulated at the correct decimal positions. -/
theorem parseNatAux_revDigits (n : Nat) : ∀ (acc : Nat) (rest : List Nat),
    parseNatAux ((natRevDigits n).reverse ++ rest) acc
      = parseNatAux rest (acc * 10 ^ (natRevDigits n).length + n) := by
  induction n using Nat.strong_induction_on with
  | _ n ih =>
    intro acc rest
    by_cases h0 : n = 0
    · subst h0
      simp [natRevDigits]
    · have hlt : n / 10 < n := Nat.div_lt_self (Nat.pos_of_ne_zero h0) (by omega)
      have hd : n % 10 < 10 := Nat.mod_lt _ (by omega)
      rw [natRevDigits, if_neg h0]
      have hdig : isDigitByte (digitByte (n % 10)) = true := by
        simp only [isDigitByte, digitByte, Bool.and_eq_true, decide_eq_true_eq]
        omega
      calc parseNatAux ((digitByte (n % 10) :: natRevDigits (n / 10)).reverse ++ rest) acc
          = parseNatAux ((natRevDigits (n / 10)).reverse
              ++ (digitByte (n % 10) :: rest)) acc := by
            simp [List.reverse_cons, List.append_assoc]
        _ = parseNatAux (digitByte (n % 10) :: rest)
              (acc * 10 ^ (natRevDigits (n / 10)).length + n / 10) := ih _ hlt acc _
        _ = parseNatAux rest
              ((acc * 10 ^ (natRevDigits (n / 10)).length + n / 10) * 10
                + (digitByte (n % 10) - 48)) := by
            rw [parseNatAux, if_pos hdig]
        _ = parseNatAux rest
              (acc * 10 ^ (digitByte (n % 10) :: natRevDigits (n / 10)).length + n) := by
            have hb : digitByte (n % 10) - 48 = n % 10 := by
              simp [digitByte]
            have hn : n / 10 * 10 + n % 10 = n := by omega
            have harith : (acc * 10 ^ (natRevDigits (n / 10)).length + n / 10) * 10
                  + n % 10
                = acc * (10 ^ (natRevDigits (n / 10)).length * 10)
                  + (n / 10 * 10 + n % 10) := by ring
            rw [hb, harith, ← pow_succ, hn, List.length_cons]

/-- Parsing the stream formatting of n followed by a non-digit byte yields
exactly n and leaves the non-digit byte unread. -/
theorem parseNatAux_natBytes (n b : Nat) (rest : List Nat)
    (hb : isDigitByte b = false) :
    parseNatAux (natBytes n ++ b :: rest) 0 = (n, b :: rest) := by
  by_cases h0 : n = 0
  · subst h0
    have hd48 : isDigitByte 48 = true := by decide
    simp [natBytes, parseNatAux, hd48, hb, digitByte]
  · rw [natBytes, if_neg h0, parseNatAux_revDigits n 0 (b :: rest)]
    rw [parseNatAux, if_neg (by simp [hb])]
    simp

/-- The sentinel byte is not a digit, so stream extraction of an int stops at
it. -/
theorem isDigitByte_sentinel : isDigitByte sentinelByte = false := by decide

/-- C7: the sender writes the numeric id followed by one sentinel byte, then
each argument's stream-formatted output each followed by one sentinel byte;
a receiver with the same declared parameters parses the id and then each
parameter back from the remaining buffer, so decoding the encoding of any
(id, p1, p2) recovers exactly (id, p1, p2), and in particular encoding the
two integers (11, 22) and decoding on the matching receiver invokes the bound
target with exactly (11, 22) unchanged. -/
theorem claim_C7 (id p1 p2 : Nat) (target : Nat → Nat → Nat × Nat) :
    remoteRecvParse (remoteSendBytes id p1 p2) = (id, p1, p2)
    ∧ remoteRecvCall target (remoteSendBytes id 11 22) = target 11 22 := by
  have key : ∀ i a b : Nat, remoteRecvParse (remoteSendBytes i a b) = (i, a, b) := by
    intro i a b
    have hs : isDigitByte sentinelByte = false := by decide
    unfold remoteRecvParse remoteSendBytes
    rw [show natBytes i ++ [sentinelByte] ++ natBytes a ++ [sentinelByte]
          ++ natBytes b ++ [sentinelByte]
        = natBytes i ++ sentinelByte
            :: (natBytes a ++ sentinelByte :: (natBytes b ++ [sentinelByte]))
        from by simp]
    rw [parseNatAux_natBytes i sentinelByte _ hs]
    simp only [skipOne]
    rw [show natBytes a ++ sentinelByte :: (natBytes b ++ [sentinelByte])
        = natBytes a ++ sentinelByte :: (natBytes b ++ [sentinelByte]) from rfl]
    rw [parseNatAux_natBytes a sentinelByte _ hs]
    simp only [skipOne]
    rw [show natBytes b ++ [sentinelByte] = natBytes b ++ sentinelByte :: [] from rfl]
    rw [parseNatAux_natBytes b sentinelByte _ hs]
  refine ⟨key id p1 p2, ?_⟩
  unfold remoteRecvCall
  rw [key id 11 22]

/-
  Marshaling Policy: DelegateParam in src/Delegate/DelegateAsync.h lines
  43-132 (non-USE_XALLOCATOR branches), and its use by
  DelegateMemberAsync<void(TClass(Param1))>::operator() (New before the
  message is dispatched, lines 233-255) and DelegateInvoke (invoke the bound
  function, then Delete, lines 258-270).

  The heap is a list of optional cells (none = freed); a cell holds either a
  value or a pointer (an address).  Dereferencing a dead or absent cell is
  undefined behavior, embedded as a none result.
-/

/-- One heap cell: a plain value or a pointer to another cell. -/
inductive Cell
  | val (v : Int)
  | ptr (a : Nat)
deriving Repr, DecidableEq

/-- Heap for marshaled arguments: index = address, none = freed cell. -/
abbrev MarshalHeap := List (Option Cell)

/-- Allocation with operator new: append a live cell, return its address. -/
def heapAlloc (h : MarshalHeap) (c : Cell) : MarshalHeap × Nat :=
  (h ++ [some c], h.length)

/-- Deallocation with operator delete: mark the cell freed. -/
def heapFree (h : MarshalHeap) (a : Nat) : MarshalHeap := h.set a none

/-- Dereference: the live cell at an address, none when dead or absent. -/
def heapRead (h : MarshalHeap) (a : Nat) : Option Cell := h.getD a none

/-- Number of live cells in the heap. -/
def liveCount (h : MarshalHeap) : Nat := (h.filter Option.isSome).length

/-- getD of an append at exactly the left length reads the first right
element. -/
theorem listGetD_append_len {α : Type} (d : α) :
    ∀ (l1 l2 : List α) (x : α), (l1 ++ x :: l2).getD l1.length d = x := by
  intro l1
  induction l1 with
  | nil => intro l2 x; rfl
  | cons y ys ih => intro l2 x; simpa using ih l2 x

/-- getD of an append at left length plus an offset reads into the right
list. -/
theorem listGetD_append_add {α : Type} (d : α) :
    ∀ (l1 l2 : List α) (k : Nat), (l1 ++ l2).getD (l1.length + k) d = l2.getD k d := by
  intro l1
  induction l1 with
  | nil => intro l2 k; simp
  | cons y ys ih =>
    intro l2 k
    have hlen : ys.length + 1 + k = (ys.length + k) + 1 := by omega
    simp only [List.cons_append, List.length_cons, hlen, List.getD]
    simpa [List.getD] using ih l2 k

/-- set of an append at exactly the left length replaces the first right
element. -/
theorem listSet_append_len {α : Type} :
    ∀ (l1 l2 : List α) (x y : α), (l1 ++ x :: l2).set l1.length y = l1 ++ y :: l2 := by
  intro l1
  induction l1 with
  | nil => intro l2 x y; rfl
  | cons z zs ih => intro l2 x y; simpa using ih l2 x y

/-- Appending freed cells does not change the number of live cells. -/
theorem liveCount_append_none (h : MarshalHeap) :
    ∀ (k : Nat), liveCount (h ++ List.replicate k none) = liveCount h := by
  intro k
  simp [liveCount, List.filter_append, List.filter_replicate]

/-- DelegateParam<Param>::New for by-value parameters (DelegateAsync.h lines
43-49): return the argument itself, no allocation. -/
def byValNew (h : MarshalHeap) (v : Int) : MarshalHeap × Int := (h, v)

/-- DelegateParam<Param>::Delete for by-value parameters: a no-op. -/
def byValDelete (h : MarshalHeap) (v : Int) : MarshalHeap := h

/-- DelegateParam<Param*>::New (lines 53-65): heap-allocate a copy of the
pointee and return the new pointer; dereferencing an invalid pointer is UB
(none). -/
def ptrNew (h : MarshalHeap) (a : Nat) : Option (MarshalHeap × Nat) :=
  match heapRead h a with
  | some c => some (heapAlloc h c)
  | none => none

/-- DelegateParam<Param*>::Delete (lines 67-74): destroy the duplicate. -/
def ptrDelete (h : MarshalHeap) (a : Nat) : MarshalHeap := heapFree h a

/-- DelegateParam<Param&>::New (lines 110-122): heap-allocate a copy of the
referent and rebind the reference to it — same allocation as the pointer
rule, with the reference modelled as the referent's address. -/
def refNew (h : MarshalHeap) (a : Nat) : Option (MarshalHeap × Nat) :=
  match heapRead h a with
  | some c => some (heapAlloc h c)
  | none => none

/-- DelegateParam<Param&>::Delete (lines 124-131): delete &param, destroying
the duplicate referent. -/
def refDelete (h : MarshalHeap) (a : Nat) : MarshalHeap := heapFree h a

/-- DelegateParam<Param**>::New (lines 78-94): new Param*() allocates the
outer pointer cell, then new Param(**param) allocates a copy of the
inner value and the outer cell is pointed at it. -/
def ptrptrNew (h : MarshalHeap) (ao : Nat) : Option (MarshalHeap × Nat) :=
  match heapRead h ao with
  | some (Cell.ptr ai) =>
    match heapRead h ai with
    | some c =>
      let g1 := heapAlloc h (Cell.ptr 0)
      let g2 := heapAlloc g1.1 c
      some (g2.1.set g1.2 (some (Cell.ptr g2.2)), g1.2)
    | none => none
  | _ => none

/-- DelegateParam<Param**>::Delete (lines 96-106): delete *param then delete
param, destroying both levels. -/
def ptrptrDelete (h : MarshalHeap) (no : Nat) : Option MarshalHeap :=
  match heapRead h no with
  | some (Cell.ptr ni) => some (heapFree (heapFree h ni) no)
  | _ => none

/-- Full producer-consumer cycle for a pointer argument: the producer runs
New before the envelope is enqueued (operator(), lines 233-255); the consumer
invokes the bound function, which reads through the duplicated pointer, and
then runs Delete (DelegateInvoke, lines 258-270).  Result: the value the
target saw and the final heap. -/
def ptrAsyncCycle (h : MarshalHeap) (a : Nat) : Option (Int × MarshalHeap) :=
  match ptrNew h a with
  | some (h1, a1) =>
    match heapRead h1 a1 with
    | some (Cell.val v) => some (v, ptrDelete h1 a1)
    | _ => none
  | none => none

/-- Full producer-consumer cycle for a reference argument, mirroring
ptrAsyncCycle with the reference rules. -/
def refAsyncCycle (h : MarshalHeap) (a : Nat) : Option (Int × MarshalHeap) :=
  match refNew h a with
  | some (h1, a1) =>
    match heapRead h1 a1 with
    | some (Cell.val v) => some (v, refDelete h1 a1)
    | _ => none
  | none => none

/-- Full producer-consumer cycle for a pointer-to-pointer argument: New
duplicates both levels before enqueue, the consumer reads through both
levels during the invoke, then Delete destroys both duplicates. -/
def ptrptrAsyncCycle (h : MarshalHeap) (ao : Nat) : Option (Int × MarshalHeap) :=
  match ptrptrNew h ao with
  | some (h1, no) =>
    match heapRead h1 no with
    | some (Cell.ptr ni) =>
      match heapRead h1 ni with
      | some (Cell.val v) =>
        match ptrptrDelete h1 no with
        | some h2 => some (v, h2)
        | none => none
      | _ => none
    | _ => none
  | none => none

/-- C8: per parameter category the producer-side New and consumer-side
Delete are exactly symmetric and each runs once per argument — by-value New
returns the argument and Delete is a no-op; pointer New heap-duplicates the
pointee and Delete destroys exactly that duplicate; pointer-to-pointer New
duplicates both levels and Delete destroys both; reference New rebinds to a
heap duplicate and Delete destroys it.  In every category the consumer's
invoke sees the producer's original value, and after Delete the heap holds
exactly the cells that were live before New (the duplicates are freed, no
original cell is touched, no leak and no double free). -/
theorem claim_C8 (h : MarshalHeap) (v : Int) (a ao ai : Nat)
    (hval : heapRead h a = some (Cell.val v))
    (houter : heapRead h ao = some (Cell.ptr ai))
    (hinner : heapRead h ai = some (Cell.val v)) :
    (byValNew h v = (h, v) ∧ byValDelete h v = h)
    ∧ ptrAsyncCycle h a = some (v, h ++ [none])
    ∧ refAsyncCycle h a = some (v, h ++ [none])
    ∧ ptrptrAsyncCycle h ao = some (v, h ++ [none, none])
    ∧ liveCount (h ++ [none]) = liveCount h
    ∧ liveCount (h ++ [none, none]) = liveCount h := by
  have hone : liveCount (h ++ [none]) = liveCount h := by
    simpa using liveCount_append_none h 1
  have htwo : liveCount (h ++ [none, none]) = liveCount h := by
    simpa using liveCount_append_none h 2
  have hrd : heapRead (h ++ [some (Cell.val v)]) h.length = some (Cell.val v) := by
    simpa [heapRead] using
      listGetD_append_len (α := Option Cell) none h [] (some (Cell.val v))
  have hset : (h ++ [some (Cell.val v)]).set h.length none = h ++ [none] := by
    simpa using listSet_append_len h ([] : MarshalHeap) (some (Cell.val v)) none
  refine ⟨⟨rfl, rfl⟩, ?_, ?_, ?_, hone, htwo⟩
  · have hnew : ptrNew h a = some (h ++ [some (Cell.val v)], h.length) := by
      simp [ptrNew, hval, heapAlloc]
    simp [ptrAsyncCycle, hnew, hrd, ptrDelete, heapFree, hset]
  · have hnew : refNew h a = some (h ++ [some (Cell.val v)], h.length) := by
      simp [refNew, hval, heapAlloc]
    simp [refAsyncCycle, hnew, hrd, refDelete, heapFree, hset]
  · have h1eq : ((h ++ [some (Cell.ptr 0)]) ++ [some (Cell.val v)]).set h.length
        (some (Cell.ptr (h.length + 1)))
        = h ++ [some (Cell.ptr (h.length + 1)), some (Cell.val v)] := by
      rw [List.append_assoc]
      simpa using
        listSet_append_len h [some (Cell.val v)] (some (Cell.ptr 0))
          (some (Cell.ptr (h.length + 1)))
    have hreadouter : heapRead (h ++ [some (Cell.ptr (h.length + 1)),
        some (Cell.val v)]) h.length = some (Cell.ptr (h.length + 1)) := by
      simpa [heapRead] using
        listGetD_append_len (α := Option Cell) none h
          [some (Cell.val v)] (some (Cell.ptr (h.length + 1)))
    have hreadinner : heapRead (h ++ [some (Cell.ptr (h.length + 1)),
        some (Cell.val v)]) (h.length + 1) = some (Cell.val v) := by
      simpa [heapRead] using
        listGetD_append_add (α := Option Cell) none h
          [some (Cell.ptr (h.length + 1)), some (Cell.val v)] 1
    have hfree1 : (h ++ [some (Cell.ptr (h.length + 1)),
        some (Cell.val v)]).set (h.length + 1) none
        = h ++ [some (Cell.ptr (h.length + 1)), none] := by
      have hstep := listSet_append_len (h ++ [some (Cell.ptr (h.length + 1))])
        ([] : MarshalHeap) (some (Cell.val v)) none
      simpa [List.append_assoc] using hstep
    have hfree2 : (h ++ [some (Cell.ptr (h.length + 1)), none]).set h.length none
        = h ++ [none, none] := by
      simpa using listSet_append_len h [(none : Option Cell)]
        (some (Cell.ptr (h.length + 1))) none
    have hnew2 : ptrptrNew h ao
        = some (h ++ [some (Cell.ptr (h.length + 1)), some (Cell.val v)],
            h.length) := by
      simp only [ptrptrNew, houter, hinner, heapAlloc, List.length_append,
        List.length_cons, List.length_nil]
      rw [show List.length h + (0 + 1) = h.length + 1 from by omega, h1eq]
    have hdel : ptrptrDelete (h ++ [some (Cell.ptr (h.length + 1)),
        some (Cell.val v)]) h.length = some (h ++ [none, none]) := by
      simp only [ptrptrDelete, hreadouter, heapFree]
      rw [hfree1, hfree2]
    simp [ptrptrAsyncCycle, hnew2, hreadouter, hreadinner, hdel]

/-- C8 witness: a three-cell heap holding the pointee value 7 at address 0,
an outer pointer at address 1 and its inner value cell at address 2. -/
theorem claim_C8_witness :
    ptrAsyncCycle [some (Cell.val 7), some (Cell.ptr 2), some (Cell.val 7)] 0
      = some (7, [some (Cell.val 7), some (Cell.ptr 2), some (Cell.val 7), none])
    ∧ ptrptrAsyncCycle [some (Cell.val 7), some (Cell.ptr 2), some (Cell.val 7)] 1
      = some (7, [some (Cell.val 7), some (Cell.ptr 2), some (Cell.val 7),
          none, none]) := by
  have hmain := claim_C8 [some (Cell.val 7), some (Cell.ptr 2), some (Cell.val 7)]
    7 0 1 2 (by decide) (by decide) (by decide)
  exact ⟨hmain.2.1, hmain.2.2.2.1⟩


/-
  Multicast Registry: src/Delegate/MulticastDelegate.h lines 18-25,
  MulticastDelegateBase.h and MulticastDelegateBase.cpp.

  MulticastDelegate::operator() (MulticastDelegate.h lines 18-25) walks the
  InvocationNode chain from GetInvocationHead(), reading node->Delegate,
  invoking it, then reading node->Next through the same node pointer.
  MulticastDelegateBase.h declares that chain: the constructor sets
  m_invocationHead to 0 and GetInvocationHead() returns it.
  MulticastDelegateBase.cpp implements operator+= as
  m_delegates.push_back(delegate.Clone()) (lines 8-11) and operator-= as
  delete-and-erase of the first equal element of m_delegates (lines 16-27):
  both mutate the m_delegates container (declared in no header of the
  source) and neither assigns m_invocationHead nor allocates or links any
  InvocationNode.

  The registry model therefore carries both pieces of state the source
  uses: the node heap and head that operator() traverses, and the
  m_delegates container that operator+= and operator-= mutate.  No source
  operation ever populates the former.  Registered delegates are identified
  by Nat ids; a handler's side effect on the registry while it runs is
  given by a behavior map (no-op, remove an id, add an id).
-/

/-- An InvocationNode of MulticastDelegateBase.h: the next link and the
owned cloned delegate, identified by its id. -/
structure MNode where
  next : Option Nat
  del : Nat
deriving Repr, DecidableEq

/-- Heap of invocation nodes; none is a freed node. -/
abbrev MHeap := List (Option MNode)

/-- A multicast registry: the InvocationNode heap and the invocation-list
head that operator() walks, and the m_delegates container that operator+=
and operator-= mutate, holding cloned delegate ids in insertion order. -/
structure Registry where
  heap : MHeap
  m_invocationHead : Option Nat
  m_delegates : List Nat
deriving Repr, DecidableEq

/-- A freshly constructed registry: m_invocationHead = 0, nothing
registered, no nodes allocated. -/
def emptyRegistry : Registry :=
  { heap := [], m_invocationHead := none, m_delegates := [] }

/-- operator+= (MulticastDelegateBase.cpp lines 8-11):
m_delegates.push_back(delegate.Clone()), appending the clone at the end of
the container; m_invocationHead and the node heap are not touched. -/
def plusEq (r : Registry) (d : Nat) : Registry :=
  { r with m_delegates := r.m_delegates ++ [d] }

/-- The scan of operator-= (MulticastDelegateBase.cpp lines 16-27): delete
and erase the first element equal to d, no-op when none matches. -/
def removeFirstEq : List Nat → Nat → List Nat
  | [], _ => []
  | x :: xs, d => if x = d then xs else x :: removeFirstEq xs d

/-- operator-= : delete and erase the first equal clone from m_delegates;
m_invocationHead and the node heap are not touched. -/
def minusEq (r : Registry) (d : Nat) : Registry :=
  { r with m_delegates := removeFirstEq r.m_delegates d }

/-- What a handler does to the registry while it is being invoked. -/
inductive HandlerAct
  | nop
  | rem (d : Nat)
  | add (d : Nat)
deriving Repr, DecidableEq

/-- Apply a handler's registry side effect. -/
def applyAct : HandlerAct → Registry → Registry
  | HandlerAct.nop, r => r
  | HandlerAct.rem d, r => minusEq r d
  | HandlerAct.add d, r => plusEq r d

/-- Failure modes of the live traversal: reading a freed node
(use-after-free, undefined behavior in the source), or fuel exhaustion. -/
inductive InvokeErr
  | useAfterFree
  | outOfFuel
deriving Repr, DecidableEq

/-- MulticastDelegate::operator() (MulticastDelegate.h lines 18-25): walk
the live chain; read node->Delegate through the node, invoke it (the handler
may mutate the registry), then read node->Next through the same node
pointer.  A read of a freed node is a use-after-free.  The log records the
invocation order. -/
def invokeAllFrom (beh : Nat → HandlerAct) :
    Nat → Registry → Option Nat → List Nat → Except InvokeErr (Registry × List Nat)
  | 0, r, cur, log =>
    match cur with
    | none => Except.ok (r, log)
    | some _ => Except.error InvokeErr.outOfFuel
  | fuel + 1, r, cur, log =>
    match cur with
    | none => Except.ok (r, log)
    | some c =>
      match r.heap.getD c none with
      | none => Except.error InvokeErr.useAfterFree
      | some n =>
        let r1 := applyAct (beh n.del) r
        match r1.heap.getD c none with
        | none => Except.error InvokeErr.useAfterFree
        | some n2 => invokeAllFrom beh fuel r1 n2.next (log ++ [n.del])

/-- One full multicast invocation pass, from GetInvocationHead(). -/
def invokeAll (beh : Nat → HandlerAct) (fuel : Nat) (r : Registry) :
    Except InvokeErr (Registry × List Nat) :=
  invokeAllFrom beh fuel r r.m_invocationHead []

/-- Registering the ids of a list in order, as repeated operator+=. -/
def buildRegistry (ids : List Nat) : Registry :=
  ids.foldl plusEq emptyRegistry

/-- A registration or removal performed through the public operators. -/
inductive RegOp
  | addOp (d : Nat)
  | remOp (d : Nat)
deriving Repr, DecidableEq

/-- Perform one public mutation on the registry. -/
def applyOp (r : Registry) : RegOp → Registry
  | RegOp.addOp d => plusEq r d
  | RegOp.remOp d => minusEq r d

/-- A registry reached from a freshly constructed one by any sequence of
operator+= and operator-= calls. -/
def applyOps (ops : List RegOp) : Registry :=
  ops.foldl applyOp emptyRegistry

/-- Neither operator+= nor operator-= writes m_invocationHead or the node
heap. -/
theorem applyOp_frame (r : Registry) (op : RegOp) :
    (applyOp r op).m_invocationHead = r.m_invocationHead
    ∧ (applyOp r op).heap = r.heap := by
  cases op <;> simp [applyOp, plusEq, minusEq]

/-- No sequence of public mutations writes m_invocationHead or the node
heap. -/
theorem foldl_applyOp_frame :
    ∀ (ops : List RegOp) (r : Registry),
      (ops.foldl applyOp r).m_invocationHead = r.m_invocationHead
      ∧ (ops.foldl applyOp r).heap = r.heap := by
  intro ops
  induction ops with
  | nil => intro r; exact ⟨rfl, rfl⟩
  | cons op rest ih =>
    intro r
    have h1 := applyOp_frame r op
    have h2 := ih (applyOp r op)
    exact ⟨h2.1.trans h1.1, h2.2.trans h1.2⟩

/-- A traversal that starts at a null head returns at once with the log it
was given. -/
theorem invokeAllFrom_none (beh : Nat → HandlerAct) (fuel : Nat)
    (r : Registry) (log : List Nat) :
    invokeAllFrom beh fuel r none log = Except.ok (r, log) := by
  cases fuel <;> rfl

/-- C4 counterexample: registering handlers 1, 2, 3 and invoking once calls
none of them.  operator+= appends the clones to m_delegates but never links
them into the InvocationNode chain, and nothing else in the source assigns
m_invocationHead, so operator() walks an empty chain and returns with an
empty log: every registered entry is invoked zero times, not exactly once
in registration order. -/
theorem claim_C4_counterexample :
    (buildRegistry [1, 2, 3]).m_delegates = [1, 2, 3]
    ∧ invokeAll (fun _ => HandlerAct.nop) 3 (buildRegistry [1, 2, 3])
      = Except.ok (buildRegistry [1, 2, 3], [])
    ∧ (buildRegistry [1, 2, 3]).m_invocationHead = none :=
  ⟨rfl, rfl, rfl⟩

/-- C4 amended: operator+= appends the cloned entry at the end of the
m_delegates container, but the invocation pass iterates the separate
InvocationNode chain headed by m_invocationHead, which no operation in the
source ever populates; so after any sequence of registrations and removals
an invocation pass invokes no entry at all and returns an empty log —
vacuously without short-circuit and unaffected by handlers that add or
remove registrations — instead of invoking each registered entry exactly
once in registration order. -/
theorem claim_C4 (ops : List RegOp) (beh : Nat → HandlerAct) (fuel : Nat)
    (r : Registry) (d : Nat) :
    (plusEq r d).m_delegates = r.m_delegates ++ [d]
    ∧ (applyOps ops).m_invocationHead = none
    ∧ invokeAll beh fuel (applyOps ops) = Except.ok (applyOps ops, []) := by
  have hhead : (applyOps ops).m_invocationHead = none :=
    (foldl_applyOp_frame ops emptyRegistry).1
  refine ⟨rfl, hhead, ?_⟩
  unfold invokeAll
  rw [hhead]
  exact invokeAllFrom_none beh fuel (applyOps ops) []

end DelegateLib
